import Mathlib

/-!
# Verification of the TextMAP tokenization-and-MWE-contraction pipeline

Shallow embedding of `src/textmap/tokenizers.py` (classes `BaseTokenizer`,
`NLTKTokenizer`, `CountVectorizerTokenizer`, `StanzaTokenizer`) together with
the NLTK library routines the module delegates to
(`MWETokenizer.tokenize` / `tokenize_sents`, `BigramCollocationFinder`
counting, `BigramAssocMeasures.likelihood_ratio`, and
`AbstractCollocationFinder.above_score`).

Conventions of the embedding:
* A token is a `String`, a sentence a `List String`, a document a list of
  sentences, and the fitted attribute `tokens_by_sent_by_doc_` a list of
  documents.
* The external sentence and word tokenization primitives
  (`nltk.sent_tokenize`, `nltk.word_tokenize`) are parameters of type
  `String → List String`: the repository treats them as external
  capabilities.
* Python exceptions are modelled by `Option`: a function that can raise
  returns `none` on the raising path.
* Python floats are modelled by exact rationals for every comparison and
  arithmetic step, and the transcendental base-two logarithm is an abstract
  parameter `lg : ℚ → ℝ`, so every branching decision of the code is
  executable while the score value stays symbolic.
-/

namespace TextMAP

/-- A sentence: an ordered list of string tokens. -/
abbrev Sentence := List String

/-- A document: an ordered list of sentences. -/
abbrev Document := List Sentence

/-- The hierarchical token attribute `tokens_by_sent_by_doc_`:
a list of documents. -/
abbrev TokenStructure := List Document

/-- `nltk.tokenize.MWETokenizer(mwes).tokenize(text)` specialized to the only
shape the repository ever builds: every multiword expression in `mwes` is a
bigram (the output of `BigramCollocationFinder.above_score`, always a pair).
The trie walk of the NLTK source then degenerates to: scan left to right, and
when the current token and the next form a pair of `mwes`, emit the two
joined by the separator and advance past both; otherwise emit the current
token and advance by one. -/
def mweTokenize (mwes : List (String × String)) (sep : String) :
    List String → List String
  | [] => []
  | [t] => [t]
  | a :: b :: rest =>
      if (a, b) ∈ mwes then
        (a ++ sep ++ b) :: mweTokenize mwes sep rest
      else
        a :: mweTokenize mwes sep (b :: rest)

/-- `MWETokenizer.tokenize_sents`: apply `tokenize` to each sentence of a
document. -/
def tokenizeSents (mwes : List (String × String)) (sep : String)
    (doc : Document) : Document :=
  doc.map (mweTokenize mwes sep)

/-- Lines 134-136 of `tokenizers.py`: rebuild `tokens_by_sent_by_doc_` by
running the contracter over every document. -/
def contractStructure (mwes : List (String × String)) (sep : String)
    (s : TokenStructure) : TokenStructure :=
  s.map (tokenizeSents mwes sep)

/-- Modelled from the spec: `flatten`, imported from the repository's
`utilities` module, which is not under `src/`. Section 6 of the spec
describes the projection as "tokens grouped by sentence (documents
flattened, sentence grouping preserved)": one level of list flattening. -/
def flatten {α : Type} (l : List (List α)) : List α :=
  l.foldr (fun a b => a ++ b) []

/-- `BaseTokenizer.tokens_by_sent` (lines 56-63): the complete list of
tokenized sentences, all documents flattened one level. -/
def tokensBySent (s : TokenStructure) : List Sentence :=
  flatten s

/-- Python `str.lower`, modelled character by character (faithful on the
ASCII token content the repository's examples use). -/
def pyLower (s : String) : String :=
  String.mk (s.data.map Char.toLower)

/-- Lines 115-122 of `tokenizers.py`: the initial hierarchical structure.
With `lower_case` set, each sentence produced by the sentence tokenizer is
lower-cased before word tokenization; otherwise sentences are word-tokenized
as produced. `pyLower` models Python `str.lower` here. -/
def initialStructure (sentTok wordTok : String → List String)
    (lower_case : Bool) (X : List String) : TokenStructure :=
  if lower_case then
    X.map (fun doc => (sentTok doc).map (fun sent => wordTok (pyLower sent)))
  else
    X.map (fun doc => (sentTok doc).map (fun sent => wordTok sent))

/-- Lines 124-136 of `tokenizers.py`: the `for i in range(max_MWE_iterations)`
loop. `select` abstracts lines 125-130 — building a
`BigramCollocationFinder` from `tokens_by_sent()` and listing
`above_score(likelihood_ratio, min_MWE_PMI)` — as a function of the current
sentence corpus; it returns `none` when the scorer raises. An empty
selection hits the `break` on lines 131-132; otherwise the structure is
contracted and the loop continues with the remaining budget. -/
def fitLoop (select : List Sentence → Option (List (String × String)))
    (sep : String) : ℕ → TokenStructure → Option TokenStructure
  | 0, s => some s
  | n + 1, s =>
      match select (tokensBySent s) with
      | none => none
      | some mwes =>
          if mwes.isEmpty then some s
          else fitLoop select sep n (contractStructure mwes sep s)

/-- `NLTKTokenizer.fit` (lines 103-137): build the initial structure, then run
the contraction loop. `max_MWE_iterations` is an integer, as in Python, and
`range(n)` for `n ≤ 0` yields no iterations, which `Int.toNat` captures.
The separator is the `MWETokenizer` default, an underscore. The
`min_MWE_PMI` configuration value lives inside `select` (it is only ever
read on line 128). No validation of any configuration value is performed
anywhere in `__init__` (lines 96-101) or `fit`. -/
def NLTKTokenizer.fit (sentTok wordTok : String → List String)
    (lower_case : Bool) (max_MWE_iterations : ℤ)
    (select : List Sentence → Option (List (String × String)))
    (X : List String) : Option TokenStructure :=
  fitLoop select "_" max_MWE_iterations.toNat
    (initialStructure sentTok wordTok lower_case X)

/-- `BaseTokenizer.fit` (lines 17-30): sets `tokens_by_sent_by_doc_` to
`None` and returns `self`; the value of the attribute afterwards is the
Python `None`, modelled as `none`. -/
def BaseTokenizer.fit (_X : List String) :
    Option TokenStructure :=
  none

/-- `StanzaTokenizer` (lines 184-185) is `class StanzaTokenizer(BaseTokenizer):
pass`, so its `fit_transform` is `BaseTokenizer.fit_transform` (lines 32-45):
call `fit`, then return the stored `tokens_by_sent_by_doc_`, which `fit` has
just set to `None`. -/
def StanzaTokenizer.fit_transform (X : List String) :
    Option TokenStructure :=
  BaseTokenizer.fit X

/-- `AbstractCollocationFinder.above_score(score_fn, min_score)`: NLTK yields
every ngram of the scored list whose score satisfies `score > min_score`, a
strict comparison (its docstring: scores that "exceed the given minimum
score"). The input is the scored association list `score_ngrams` produces;
the sort NLTK applies there does not affect membership. -/
def above_score {α : Type} [LinearOrder α]
    (scored : List ((String × String) × α)) (min_score : α) :
    List (String × String) :=
  (scored.filter (fun ps => decide (min_score < ps.2))).map Prod.fst

/-- `nltk.metrics.association._SMALL = 1e-20`, as an exact rational. -/
def SMALL : ℚ := 1 / 10 ^ 20

/-- `BigramAssocMeasures._contingency(n_ii, (n_ix, n_xi), n_xx)`: the four
cells `(n_ii, n_oi, n_io, n_oo)` of the 2x2 contingency table. -/
def contingency (n_ii n_ix n_xi n_xx : ℤ) : ℤ × ℤ × ℤ × ℤ :=
  (n_ii, n_xi - n_ii, n_ix - n_ii, n_xx - n_ii - (n_xi - n_ii) - (n_ix - n_ii))

/-- One cell of `_expected_values`: `(cont[i] + cont[i^1]) * (cont[i] +
cont[i^2]) / n_xx` with `n_xx` the sum of the table. Rational division with a
zero denominator is guarded in `llrScore` (Python would raise
`ZeroDivisionError` there). -/
def expectedCell (rowSum colSum total : ℤ) : ℚ :=
  ((rowSum * colSum : ℤ) : ℚ) / ((total : ℤ) : ℚ)

/-- One summand of `likelihood_ratio`: `obs * _ln(obs / (exp + _SMALL) +
_SMALL)` where `_ln` is the base-two logarithm, abstracted as `lg`. Python
evaluates `_ln` before multiplying, so a nonpositive argument raises a math
domain error even when `obs = 0` would annihilate the product; the raising
paths return `none`. -/
def llrTerm (lg : ℚ → ℝ) (obs : ℤ) (e : ℚ) : Option ℝ :=
  if e + SMALL = 0 then none
  else if (obs : ℚ) / (e + SMALL) + SMALL ≤ 0 then none
  else some ((obs : ℝ) * lg ((obs : ℚ) / (e + SMALL) + SMALL))

/-- `BigramAssocMeasures.likelihood_ratio(n_ii, (n_ix, n_xi), n_xx)`:
`2 * sum(obs * _ln(obs / (exp + _SMALL) + _SMALL))` over the four
contingency cells paired with their expected values. `none` models the
exceptions Python can raise while evaluating the sum (`ZeroDivisionError`
when the table total is zero, `ValueError` from a nonpositive log
argument). -/
def llrScore (lg : ℚ → ℝ) (n_ii n_ix n_xi n_xx : ℤ) : Option ℝ :=
  let c := contingency n_ii n_ix n_xi n_xx
  let n := c.1 + c.2.1 + c.2.2.1 + c.2.2.2
  if n = 0 then none
  else
    (llrTerm lg c.1 (expectedCell (c.1 + c.2.1) (c.1 + c.2.2.1) n)).bind fun t0 =>
    (llrTerm lg c.2.1 (expectedCell (c.2.1 + c.1) (c.2.1 + c.2.2.2) n)).bind fun t1 =>
    (llrTerm lg c.2.2.1 (expectedCell (c.2.2.1 + c.2.2.2) (c.2.2.1 + c.1) n)).bind fun t2 =>
    (llrTerm lg c.2.2.2 (expectedCell (c.2.2.2 + c.2.2.1) (c.2.2.2 + c.2.1) n)).map fun t3 =>
    2 * (t0 + t1 + t2 + t3)

/-- Occurrences of token `w` in a sentence: one `word_fd` entry of
`BigramCollocationFinder.from_words` restricted to that sentence. -/
def countTok (w : String) : List String → ℕ
  | [] => 0
  | a :: l => (if a = w then 1 else 0) + countTok w l

/-- Adjacent occurrences of the ordered pair `(x, y)` in a sentence: one
`bigram_fd` entry restricted to that sentence (windows of size two, every
position, overlaps counted). -/
def countAdjacent (x y : String) : List String → ℕ
  | a :: b :: rest => (if a = x ∧ b = y then 1 else 0) + countAdjacent x y (b :: rest)
  | _ => 0

/-- `word_fd[w]` of `BigramCollocationFinder.from_documents(sents)`: total
occurrences of token `w` across all sentences (the padding symbol between
documents is never counted). -/
def wordCount (sents : List Sentence) (w : String) : ℕ :=
  (sents.map (countTok w)).sum

/-- `bigram_fd[(x, y)]` of `BigramCollocationFinder.from_documents(sents)`:
adjacent occurrences of `(x, y)` within single sentences (the padding symbol
stops windows from crossing a sentence boundary). -/
def bigramCount (sents : List Sentence) (x y : String) : ℕ :=
  (sents.map (countAdjacent x y)).sum

/-- `finder.N = word_fd.N()`: total token occurrences across the corpus. -/
def totalCount (sents : List Sentence) : ℕ :=
  (sents.map List.length).sum

/-- Whether a sentence contains an adjacent occurrence of `(x, y)`. -/
def hasAdjacentB (x y : String) : List String → Bool
  | a :: b :: rest => (a == x && b == y) || hasAdjacentB x y (b :: rest)
  | _ => false

/-- The sentence-count profile of a structure: one length per document. Equal
profiles mean equal document counts and equal per-document sentence counts. -/
def sentCounts (s : TokenStructure) : List ℕ :=
  s.map List.length

/-- Pointwise comparison of two structures of identical shape: same document
list length, same sentence list lengths, and each sentence of `a` no longer
than the corresponding sentence of `b`. -/
def tokenLE (a b : TokenStructure) : Prop :=
  List.Forall₂ (fun d1 d2 =>
    List.Forall₂ (fun s1 s2 : Sentence => s1.length ≤ s2.length) d1 d2) a b

/-- The spec's example input collection (section 8): three raw documents, the
second one empty. -/
def exampleDocs : List String :=
  ["foo bar pok wer pok pok foo bar wer qwe pok asd fgh", "",
   "fgh asd foo pok qwe pok wer pok foo bar pok pok wer"]

/-- A concrete instantiation of the external sentence-splitting capability
(spec section 6), used for closed instances: the empty string yields no
sentences and any other string is a single sentence. This agrees with
`nltk.sent_tokenize` on the punctuation-free example inputs. -/
def simpleSentTok (d : String) : List String :=
  if d = "" then [] else [d]

/-- Helper for `simpleWordTok`: split a character list on spaces, dropping
empty runs; `cur` holds the current word reversed. -/
def splitWordsAux (cur : List Char) : List Char → List (List Char)
  | [] => if cur.isEmpty then [] else [cur.reverse]
  | c :: cs =>
      if c = ' ' then
        if cur.isEmpty then splitWordsAux [] cs
        else cur.reverse :: splitWordsAux [] cs
      else splitWordsAux (c :: cur) cs

/-- A concrete instantiation of the external word-splitting capability (spec
section 6), used for closed instances: split on spaces. This agrees with
`nltk.word_tokenize` on the punctuation-free example inputs. -/
def simpleWordTok (s : String) : List String :=
  (splitWordsAux [] s.data).map String.mk

/-- Modelled from the spec, for the refinement comparison of claim C7 only:
section 6 words the `lower_case` option as "lower-case text before sentence
splitting", so here the document is lower-cased first and sentence splitting
operates on the lowered text. The source (line 117) instead lower-cases each
sentence after splitting; see `initialStructure`. -/
def specLowerInitialStructure (sentTok wordTok : String → List String)
    (X : List String) : TokenStructure :=
  X.map (fun doc => (sentTok (pyLower doc)).map (fun sent => wordTok sent))

/-! ## Lemmas about the contraction pass -/

theorem hasAdjacentB_cons_cons (x y a b : String) (l : List String) :
    hasAdjacentB x y (a :: b :: l) = ((a == x && b == y) || hasAdjacentB x y (b :: l)) :=
  rfl

theorem hasAdjacentB_cons_of_ne (x y m : String) (l : List String) (hm : m ≠ x) :
    hasAdjacentB x y (m :: l) = hasAdjacentB x y l := by
  cases l with
  | nil => rfl
  | cons c l' =>
      rw [hasAdjacentB_cons_cons, beq_eq_false_iff_ne.mpr hm, Bool.false_and,
        Bool.false_or]

/-- The contraction pass maps a nonempty sentence to a nonempty sentence whose
head is either the original head or a merged pair from the contraction set
starting at the original head. -/
theorem mweTokenize_cons_shape (mwes : List (String × String)) (sep b : String)
    (rest : List String) :
    ∃ t l', mweTokenize mwes sep (b :: rest) = t :: l' ∧
      (t = b ∨ ∃ p ∈ mwes, t = p.1 ++ sep ++ p.2) := by
  cases rest with
  | nil => exact ⟨b, [], rfl, Or.inl rfl⟩
  | cons c rest' =>
      by_cases h : (b, c) ∈ mwes
      · refine ⟨b ++ sep ++ c, mweTokenize mwes sep rest', ?_, Or.inr ⟨(b, c), h, rfl⟩⟩
        simp only [mweTokenize, if_pos h]
      · refine ⟨b, mweTokenize mwes sep (c :: rest'), ?_, Or.inl rfl⟩
        simp only [mweTokenize, if_neg h]

/-- After one contraction pass, no adjacent occurrence of a pair of the
contraction set survives, provided no merged token collides with either
component of the pair. -/
theorem mweTokenize_no_adjacent (mwes : List (String × String)) (sep x y : String)
    (hmem : (x, y) ∈ mwes)
    (hx : ∀ p ∈ mwes, p.1 ++ sep ++ p.2 ≠ x)
    (hy : ∀ p ∈ mwes, p.1 ++ sep ++ p.2 ≠ y) :
    ∀ toks, hasAdjacentB x y (mweTokenize mwes sep toks) = false := by
  intro toks
  induction toks using mweTokenize.induct mwes sep with
  | case1 => rfl
  | case2 t => rfl
  | case3 a b rest h ih =>
      simp only [mweTokenize, if_pos h]
      rw [hasAdjacentB_cons_of_ne x y _ _ (hx (a, b) h)]
      exact ih
  | case4 a b rest h ih =>
      simp only [mweTokenize, if_neg h]
      by_cases hax : a = x
      · have hby : b ≠ y := by
          intro hby
          exact h (by rw [hax, hby]; exact hmem)
        obtain ⟨t, l', heq, ht⟩ := mweTokenize_cons_shape mwes sep b rest
        have hty : t ≠ y := by
          rcases ht with h1 | ⟨p, hp, h2⟩
          · rw [h1]; exact hby
          · rw [h2]; exact hy p hp
        rw [heq, hasAdjacentB_cons_cons, beq_eq_false_iff_ne.mpr hty,
          Bool.and_false, Bool.false_or, ← heq]
        exact ih
      · rw [hasAdjacentB_cons_of_ne x y _ _ hax]
        exact ih

/-- Every token of the contracted sentence is an original token or a merged
pair from the contraction set. -/
theorem mweTokenize_mem (mwes : List (String × String)) (sep : String) :
    ∀ toks, ∀ t ∈ mweTokenize mwes sep toks,
      t ∈ toks ∨ ∃ p ∈ mwes, t = p.1 ++ sep ++ p.2 := by
  intro toks
  induction toks using mweTokenize.induct mwes sep with
  | case1 => intro t ht; cases ht
  | case2 u =>
      intro t ht
      exact Or.inl ht
  | case3 a b rest h ih =>
      simp only [mweTokenize, if_pos h]
      intro t ht
      rcases List.mem_cons.mp ht with h1 | h1
      · exact Or.inr ⟨(a, b), h, h1⟩
      · rcases ih t h1 with h2 | h2
        · exact Or.inl (by simp [h2])
        · exact Or.inr h2
  | case4 a b rest h ih =>
      simp only [mweTokenize, if_neg h]
      intro t ht
      rcases List.mem_cons.mp ht with h1 | h1
      · exact Or.inl (by simp [h1])
      · rcases ih t h1 with h2 | h2
        · exact Or.inl (by simp [List.mem_cons.mp h2])
        · exact Or.inr h2

/-- The contraction pass never lengthens a sentence. -/
theorem mweTokenize_length_le (mwes : List (String × String)) (sep : String) :
    ∀ toks, (mweTokenize mwes sep toks).length ≤ toks.length := by
  intro toks
  induction toks using mweTokenize.induct mwes sep with
  | case1 => simp [mweTokenize]
  | case2 t => simp [mweTokenize]
  | case3 a b rest h ih =>
      simp only [mweTokenize, if_pos h, List.length_cons]
      omega
  | case4 a b rest h ih =>
      simp only [mweTokenize, if_neg h, List.length_cons]
      simp only [List.length_cons] at ih
      omega

/-- Matches are non-overlapping pairs: each output token absorbs at most two
input tokens. -/
theorem mweTokenize_length_ge (mwes : List (String × String)) (sep : String) :
    ∀ toks, toks.length ≤ 2 * (mweTokenize mwes sep toks).length := by
  intro toks
  induction toks using mweTokenize.induct mwes sep with
  | case1 => simp [mweTokenize]
  | case2 t => simp [mweTokenize]
  | case3 a b rest h ih =>
      simp only [mweTokenize, if_pos h, List.length_cons]
      omega
  | case4 a b rest h ih =>
      simp only [mweTokenize, if_neg h, List.length_cons]
      simp only [List.length_cons] at ih
      omega

/-! ## Lemmas about shape preservation and the contraction loop -/

theorem forall2_trans {α : Type} (R : α → α → Prop)
    (hR : ∀ a b c, R a b → R b c → R a c) :
    ∀ {l1 l2 l3 : List α}, List.Forall₂ R l1 l2 → List.Forall₂ R l2 l3 →
      List.Forall₂ R l1 l3 := by
  intro l1 l2 l3 h12 h23
  induction h12 generalizing l3 with
  | nil => cases h23; exact List.Forall₂.nil
  | cons hab h ih =>
      cases h23 with
      | cons hbc hrest => exact List.Forall₂.cons (hR _ _ _ hab hbc) (ih hrest)

theorem tokenLE_refl (s : TokenStructure) : tokenLE s s := by
  rw [tokenLE, List.forall₂_same]
  intro d _
  rw [List.forall₂_same]
  intro sent _
  exact le_refl _

theorem tokenLE_trans {a b c : TokenStructure} (h1 : tokenLE a b) (h2 : tokenLE b c) :
    tokenLE a c := by
  refine forall2_trans _ ?_ h1 h2
  intro d1 d2 d3 hd1 hd2
  exact forall2_trans (fun s1 s2 : Sentence => s1.length ≤ s2.length)
    (fun s1 s2 s3 hs1 hs2 => le_trans hs1 hs2) hd1 hd2

/-- One contraction pass keeps the document count and every per-document
sentence count. -/
theorem sentCounts_contract (mwes : List (String × String)) (sep : String)
    (s : TokenStructure) :
    sentCounts (contractStructure mwes sep s) = sentCounts s := by
  simp [sentCounts, contractStructure, tokenizeSents, List.map_map, Function.comp]

/-- One contraction pass never lengthens any sentence. -/
theorem tokenLE_contract (mwes : List (String × String)) (sep : String)
    (s : TokenStructure) :
    tokenLE (contractStructure mwes sep s) s := by
  rw [tokenLE, contractStructure, List.forall₂_map_left_iff, List.forall₂_same]
  intro d _
  rw [tokenizeSents, List.forall₂_map_left_iff, List.forall₂_same]
  intro sent _
  exact mweTokenize_length_le mwes sep sent

/-- Whatever the selector does, a successful run of the contraction loop keeps
the document count and every per-document sentence count, and never lengthens
any sentence. -/
theorem fitLoop_shape (select : List Sentence → Option (List (String × String)))
    (sep : String) :
    ∀ (n : ℕ) (s r : TokenStructure), fitLoop select sep n s = some r →
      sentCounts r = sentCounts s ∧ tokenLE r s := by
  intro n
  induction n with
  | zero =>
      intro s r h
      obtain rfl : s = r := by simpa [fitLoop] using h
      exact ⟨rfl, tokenLE_refl s⟩
  | succ n ih =>
      intro s r h
      rw [fitLoop] at h
      split at h
      · simp at h
      · split at h
        · obtain rfl : s = r := by simpa using h
          exact ⟨rfl, tokenLE_refl s⟩
        · obtain ⟨h1, h2⟩ := ih _ r h
          exact ⟨h1.trans (sentCounts_contract _ sep s),
            tokenLE_trans h2 (tokenLE_contract _ sep s)⟩

/-! ## Lemmas about the corpus counts feeding the scorer -/

theorem countAdjacent_le_countTok_left (x y : String) :
    ∀ l, countAdjacent x y l ≤ countTok x l := by
  intro l
  induction l with
  | nil => simp [countAdjacent, countTok]
  | cons a l' ih =>
      cases l' with
      | nil => simp [countAdjacent, countTok]
      | cons b rest =>
          rw [countAdjacent, countTok]
          by_cases h : a = x ∧ b = y
          · rw [if_pos h, if_pos h.1]
            omega
          · rw [if_neg h]
            split <;> omega

theorem countAdjacent_cons_le_countTok (x y c : String) :
    ∀ l, countAdjacent x y (c :: l) ≤ countTok y l := by
  intro l
  induction l generalizing c with
  | nil => simp [countAdjacent]
  | cons d l' ih =>
      rw [countAdjacent, countTok]
      have h2 := ih d
      by_cases h : c = x ∧ d = y
      · rw [if_pos h, if_pos h.2]
        omega
      · rw [if_neg h]
        split <;> omega

theorem countAdjacent_le_countTok_right (x y : String) :
    ∀ l, countAdjacent x y l ≤ countTok y l := by
  intro l
  cases l with
  | nil => simp [countAdjacent, countTok]
  | cons c l' =>
      have h1 := countAdjacent_cons_le_countTok x y c l'
      rw [countTok]
      split <;> omega

theorem countTok_pair_le_length (x y : String) (hxy : x ≠ y) :
    ∀ l, countTok x l + countTok y l ≤ l.length := by
  intro l
  induction l with
  | nil => simp [countTok]
  | cons a l' ih =>
      rw [countTok, countTok, List.length_cons]
      by_cases h1 : a = x
      · rw [if_pos h1, if_neg (by rw [h1]; exact hxy)]
        omega
      · rw [if_neg h1]
        split <;> omega

theorem bigramCount_le_wordCount_left (sents : List Sentence) (x y : String) :
    bigramCount sents x y ≤ wordCount sents x := by
  induction sents with
  | nil => simp [bigramCount, wordCount]
  | cons s ss ih =>
      simp only [bigramCount, wordCount, List.map_cons, List.sum_cons] at ih ⊢
      exact Nat.add_le_add (countAdjacent_le_countTok_left x y s) ih

theorem bigramCount_le_wordCount_right (sents : List Sentence) (x y : String) :
    bigramCount sents x y ≤ wordCount sents y := by
  induction sents with
  | nil => simp [bigramCount, wordCount]
  | cons s ss ih =>
      simp only [bigramCount, wordCount, List.map_cons, List.sum_cons] at ih ⊢
      exact Nat.add_le_add (countAdjacent_le_countTok_right x y s) ih

theorem wordCount_pair_le_totalCount (sents : List Sentence) (x y : String)
    (hxy : x ≠ y) :
    wordCount sents x + wordCount sents y ≤ totalCount sents := by
  induction sents with
  | nil => simp [wordCount, totalCount]
  | cons s ss ih =>
      simp only [wordCount, totalCount, List.map_cons, List.sum_cons] at ih ⊢
      have h1 := countTok_pair_le_length x y hxy s
      omega

/-! ## Definedness of the likelihood-ratio score -/

theorem SMALL_pos : (0 : ℚ) < SMALL := by
  norm_num [SMALL]

theorem expectedCell_nonneg {r c t : ℤ} (hr : 0 ≤ r) (hc : 0 ≤ c) (ht : 0 ≤ t) :
    0 ≤ expectedCell r c t := by
  rw [expectedCell]
  apply div_nonneg
  · exact_mod_cast mul_nonneg hr hc
  · exact_mod_cast ht

/-- A summand of the likelihood-ratio sum is defined whenever the observed
cell and the expected cell are nonnegative. -/
theorem llrTerm_isSome (lg : ℚ → ℝ) (obs : ℤ) (e : ℚ)
    (hobs : 0 ≤ obs) (he : 0 ≤ e) :
    (llrTerm lg obs e).isSome = true := by
  have hpos : 0 < e + SMALL := by
    have := SMALL_pos
    linarith
  have harg : 0 < (obs : ℚ) / (e + SMALL) + SMALL := by
    have h1 : 0 ≤ (obs : ℚ) / (e + SMALL) :=
      div_nonneg (by exact_mod_cast hobs) hpos.le
    have h2 := SMALL_pos
    linarith
  rw [llrTerm, if_neg (ne_of_gt hpos), if_neg (not_le.mpr harg)]
  rfl

theorem bindChain_isSome {α : Type} (o0 o1 o2 o3 : Option α) (g : α → α → α → α → α)
    (h0 : o0.isSome = true) (h1 : o1.isSome = true)
    (h2 : o2.isSome = true) (h3 : o3.isSome = true) :
    (o0.bind fun t0 => o1.bind fun t1 => o2.bind fun t2 =>
      o3.map fun t3 => g t0 t1 t2 t3).isSome = true := by
  obtain ⟨v0, hv0⟩ := Option.isSome_iff_exists.mp h0
  obtain ⟨v1, hv1⟩ := Option.isSome_iff_exists.mp h1
  obtain ⟨v2, hv2⟩ := Option.isSome_iff_exists.mp h2
  obtain ⟨v3, hv3⟩ := Option.isSome_iff_exists.mp h3
  rw [hv0, hv1, hv2, hv3]
  rfl

/-- The likelihood-ratio score is defined whenever all four contingency cells
are nonnegative and the pair occurs at all. -/
theorem llrScore_isSome (lg : ℚ → ℝ) (n_ii n_ix n_xi n_xx : ℤ)
    (h1 : 1 ≤ n_ii) (h2 : n_ii ≤ n_ix) (h3 : n_ii ≤ n_xi)
    (h4 : n_ix + n_xi - n_ii ≤ n_xx) :
    (llrScore lg n_ii n_ix n_xi n_xx).isSome = true := by
  unfold llrScore contingency
  dsimp only
  rw [if_neg (by omega)]
  apply bindChain_isSome <;>
    exact llrTerm_isSome lg _ _ (by omega)
      (expectedCell_nonneg (by omega) (by omega) (by omega))

theorem getD_map {α β : Type} (f : α → β) (d : α) :
    ∀ (l : List α) (i : ℕ), (l.map f).getD i (f d) = f (l.getD i d) := by
  intro l
  induction l with
  | nil => intro i; rfl
  | cons a l ih =>
      intro i
      cases i with
      | zero => rfl
      | succ j => exact ih j

/-! ## The claims -/

/-- Claim C1: one contraction pass scans each sentence left to right and,
whenever the current token and the next form a pair of the ContractionSet,
replaces both with the separator-joined token and advances past the merged
pair, non-overlapping within the pass. Formally, provided no joined token of
the set collides with either component of a pair `(x, y)` of the set: after
the pass no adjacent `(x, y)` occurrence remains in any sentence (so every
adjacent occurrence was merged), every output token is an original token or a
separator-joined pair of the set, and each output token absorbs at most two
input tokens (matches are non-overlapping). -/
theorem claim_C1_contraction_pass (mwes : List (String × String))
    (sep x y : String) (hmem : (x, y) ∈ mwes)
    (hx : ∀ p ∈ mwes, p.1 ++ sep ++ p.2 ≠ x)
    (hy : ∀ p ∈ mwes, p.1 ++ sep ++ p.2 ≠ y) :
    (∀ toks, hasAdjacentB x y (mweTokenize mwes sep toks) = false ∧
      (∀ t ∈ mweTokenize mwes sep toks,
        t ∈ toks ∨ ∃ p ∈ mwes, t = p.1 ++ sep ++ p.2) ∧
      toks.length ≤ 2 * (mweTokenize mwes sep toks).length) ∧
    (∀ s : TokenStructure, ∀ doc ∈ contractStructure mwes sep s, ∀ sent ∈ doc,
      hasAdjacentB x y sent = false) := by
  refine ⟨fun toks => ⟨mweTokenize_no_adjacent mwes sep x y hmem hx hy toks,
    mweTokenize_mem mwes sep toks, mweTokenize_length_ge mwes sep toks⟩, ?_⟩
  intro s doc hdoc sent hsent
  rw [contractStructure] at hdoc
  obtain ⟨d, hd, rfl⟩ := List.mem_map.mp hdoc
  rw [tokenizeSents] at hsent
  obtain ⟨s0, hs0, rfl⟩ := List.mem_map.mp hsent
  exact mweTokenize_no_adjacent mwes sep x y hmem hx hy s0

theorem claim_C1_witness :
    hasAdjacentB "foo" "bar"
      (mweTokenize [("foo", "bar")] "_"
        ["foo", "bar", "pok", "foo", "bar", "wer"]) = false :=
  ((claim_C1_contraction_pass [("foo", "bar")] "_" "foo" "bar" (by decide)
      (by decide) (by decide)).1 ["foo", "bar", "pok", "foo", "bar", "wer"]).1

/-- Claim C2 counterexample: the claim says a bigram whose score equals
`min_MWE_PMI` exactly is included in the ContractionSet; `above_score`
compares strictly, so a pair scored exactly at the threshold is not
selected. -/
theorem claim_C2_counterexample :
    ("foo", "bar") ∉ above_score [(("foo", "bar"), (12 : ℚ))] 12 := by
  decide

/-- Claim C2 (amended): the Candidate Selector's output is exactly the subset
of pairs whose score is strictly greater than the threshold; a bigram whose
score equals `min_MWE_PMI` exactly is excluded. -/
theorem claim_C2_above_score_strict {α : Type} [LinearOrder α]
    (scored : List ((String × String) × α)) (min_score : α) (p : String × String) :
    p ∈ above_score scored min_score ↔ ∃ sc, (p, sc) ∈ scored ∧ min_score < sc := by
  simp only [above_score, List.mem_map, List.mem_filter, decide_eq_true_eq]
  constructor
  · rintro ⟨⟨q, sc⟩, ⟨hmemq, hlt⟩, rfl⟩
    exact ⟨sc, hmemq, hlt⟩
  · rintro ⟨sc, hmemp, hlt⟩
    exact ⟨(p, sc), ⟨hmemp, hlt⟩, rfl⟩

/-- Claim C3: running fit with `max_MWE_iterations = 0` returns exactly the
initial tokenizer output, whatever the scorer-selector would have done: no
scoring and no contraction is performed. -/
theorem claim_C3_zero_iterations (sentTok wordTok : String → List String)
    (select : List Sentence → Option (List (String × String)))
    (lower : Bool) (X : List String) :
    NLTKTokenizer.fit sentTok wordTok lower 0 select X =
      some (initialStructure sentTok wordTok lower X) :=
  rfl

/-- Claim C4: contraction never changes the number of documents or the number
of sentences per document, and each pass only shrinks per-sentence token
counts: one pass preserves `sentCounts` and satisfies `tokenLE` against its
input (this is the iteration `i` to `i+1` comparison), and any successful run
of the loop preserves `sentCounts` and satisfies `tokenLE` against the
initial structure. -/
theorem claim_C4_shape_preservation (mwes : List (String × String))
    (sep : String) (s : TokenStructure) :
    sentCounts (contractStructure mwes sep s) = sentCounts s ∧
    tokenLE (contractStructure mwes sep s) s ∧
    ∀ select n r, fitLoop select sep n s = some r →
      sentCounts r = sentCounts s ∧ tokenLE r s :=
  ⟨sentCounts_contract mwes sep s, tokenLE_contract mwes sep s,
    fun select n r h => fitLoop_shape select sep n s r h⟩

theorem claim_C4_witness :
    sentCounts [[["a_b"], ["c"]]] = sentCounts [[["a", "b"], ["c"]]] ∧
    tokenLE [[["a_b"], ["c"]]] [[["a", "b"], ["c"]]] :=
  (claim_C4_shape_preservation [("a", "b")] "_" [[["a", "b"], ["c"]]]).2.2
    (fun _ => some [("a", "b")]) 1 [[["a_b"], ["c"]]] (by decide)

/-- Claim C5: if in some iteration the selector returns no bigram above the
threshold, the loop terminates in that iteration even with budget remaining,
and the result is the current structure, unchanged. -/
theorem claim_C5_convergence
    (select : List Sentence → Option (List (String × String)))
    (sep : String) (n : ℕ) (s : TokenStructure)
    (h : select (tokensBySent s) = some []) :
    fitLoop select sep (n + 1) s = some s := by
  rw [fitLoop, h]
  rfl

theorem claim_C5_witness :
    fitLoop (fun _ => some []) "_" 4 [[["a", "b"]]] = some [[["a", "b"]]] :=
  claim_C5_convergence (fun _ => some []) "_" 3 [[["a", "b"]]] rfl

/-- Claim C6 counterexample: the claim says a ConfigurationError is raised
when `max_MWE_iterations < 0`. Neither `__init__` nor `fit` validates any
configuration value: `fit` with `max_MWE_iterations = -1` returns a normal
result (the initial tokenization), raising nothing. -/
theorem claim_C6_counterexample :
    NLTKTokenizer.fit simpleSentTok simpleWordTok false (-1) (fun _ => some [])
      ["a b"] = some [[["a", "b"]]] := by
  decide

/-- Claim C6 (amended): no validation is performed and no error is raised:
`fit` with `max_MWE_iterations ≤ 0` is silently accepted, `range` yields no
iterations, and the initial tokenization is returned (any `min_MWE_PMI`
value is likewise accepted unchecked, living inside `select`). -/
theorem claim_C6_no_validation (sentTok wordTok : String → List String)
    (select : List Sentence → Option (List (String × String)))
    (lower : Bool) (m : ℤ) (hm : m ≤ 0) (X : List String) :
    NLTKTokenizer.fit sentTok wordTok lower m select X =
      some (initialStructure sentTok wordTok lower X) := by
  rw [NLTKTokenizer.fit, Int.toNat_of_nonpos hm]
  rfl

theorem claim_C6_witness :
    NLTKTokenizer.fit simpleSentTok simpleWordTok false (-1) (fun _ => some [])
      ["a b"] = some (initialStructure simpleSentTok simpleWordTok false ["a b"]) :=
  claim_C6_no_validation simpleSentTok simpleWordTok (fun _ => some []) false
    (-1) (by decide) ["a b"]

/-- Claim C7 counterexample: the claim says the document text is lower-cased
before sentence splitting. With a sentence splitter that is sensitive to
case, the code (which splits the original-case document and lower-cases each
sentence afterwards) disagrees with the spec-worded order. -/
theorem claim_C7_counterexample :
    initialStructure (fun d => if d = "a" then ["a", "a"] else [d])
        (fun s => [s]) true ["A"] ≠
      specLowerInitialStructure (fun d => if d = "a" then ["a", "a"] else [d])
        (fun s => [s]) ["A"] := by
  decide

/-- Claim C7 (amended): when `lower_case` is true, each sentence is
lower-cased after sentence splitting and before word tokenization:
the structure equals the `lower_case = false` structure with the word
tokenizer precomposed with lower-casing, and the sentence counts are those of
the sentence splitter applied to the original, non-lowered documents. -/
theorem claim_C7_lowercase_after_split (sentTok wordTok : String → List String)
    (X : List String) :
    initialStructure sentTok wordTok true X =
      initialStructure sentTok (fun sent => wordTok (pyLower sent)) false X ∧
    sentCounts (initialStructure sentTok wordTok true X) =
      X.map (fun d => (sentTok d).length) := by
  constructor
  · rfl
  · simp [initialStructure, sentCounts, List.map_map, Function.comp]

/-- Claim C8: the number of documents in the tokenized structure equals the
length of the input collection, and (given that the sentence splitter maps
the empty string to no sentences, as `nltk.sent_tokenize` does) an
empty-string document yields a document with zero sentences and hence zero
tokens, with no error. -/
theorem claim_C8_document_counts (sentTok wordTok : String → List String)
    (lower : Bool) (X : List String) (i : ℕ) :
    (initialStructure sentTok wordTok lower X).length = X.length ∧
    (sentTok "" = [] → X.getD i "" = "" →
      (initialStructure sentTok wordTok lower X).getD i [] = []) := by
  constructor
  · cases lower <;> simp [initialStructure]
  · intro hst hXi
    have key : ∀ (g : String → List String),
        (X.map (fun doc => (sentTok doc).map g)).getD i [] = [] := by
      intro g
      have h1 := getD_map (fun doc => (sentTok doc).map g) "" X i
      rw [hXi, hst] at h1
      simpa [hst] using h1
    cases lower
    · exact key (fun sent => wordTok sent)
    · exact key (fun sent => wordTok (pyLower sent))

theorem claim_C8_witness :
    (initialStructure simpleSentTok simpleWordTok false exampleDocs).length =
      exampleDocs.length ∧
    (initialStructure simpleSentTok simpleWordTok false exampleDocs).getD 1 [] =
      [] ∧
    exampleDocs.length = 3 :=
  ⟨(claim_C8_document_counts simpleSentTok simpleWordTok false exampleDocs 1).1,
    (claim_C8_document_counts simpleSentTok simpleWordTok false exampleDocs 1).2
      rfl rfl,
    rfl⟩

/-- Claim C9 counterexample: the claim says the scorer yields a defined,
finite score for every adjacent pair of every corpus with no error raised.
On the one-sentence corpus `["a", "a"]` the adjacent pair `("a", "a")` has
`c_xy = 1`, `c_x = c_y = 2`, `N = 2`, making the fourth contingency cell
`-1`; the log argument of that summand is negative and the scorer raises a
math domain error (modelled as `none`). -/
theorem claim_C9_counterexample :
    bigramCount [["a", "a"]] "a" "a" = 1 ∧
    wordCount [["a", "a"]] "a" = 2 ∧
    totalCount [["a", "a"]] = 2 ∧
    llrScore (fun q => Real.log q / Real.log 2) 1 2 2 2 = none := by
  refine ⟨by decide, by decide, by decide, ?_⟩
  unfold llrScore contingency
  dsimp only
  norm_num [llrTerm, expectedCell, SMALL]

/-- Claim C9 (amended): for every corpus and every adjacent pair of distinct
tokens, the association scorer produces a defined score: all four contingency
cells derived from the corpus counts are then nonnegative, the expected-value
divisions have positive denominators, and every logarithm argument is
positive, so no error path is taken. (A pair of a token with itself can
drive the fourth cell negative and raise, as the counterexample shows.) -/
theorem claim_C9_defined_for_distinct_pairs (lg : ℚ → ℝ)
    (sents : List Sentence) (x y : String) (hxy : x ≠ y)
    (hadj : 1 ≤ bigramCount sents x y) :
    (llrScore lg (bigramCount sents x y) (wordCount sents x)
      (wordCount sents y) (totalCount sents)).isSome = true := by
  have hl := bigramCount_le_wordCount_left sents x y
  have hr := bigramCount_le_wordCount_right sents x y
  have ht := wordCount_pair_le_totalCount sents x y hxy
  apply llrScore_isSome <;> omega

theorem claim_C9_witness :
    (llrScore (fun q => Real.log q / Real.log 2)
      (bigramCount [["a", "b"]] "a" "b") (wordCount [["a", "b"]] "a")
      (wordCount [["a", "b"]] "b") (totalCount [["a", "b"]])).isSome = true :=
  claim_C9_defined_for_distinct_pairs (fun q => Real.log q / Real.log 2)
    [["a", "b"]] "a" "b" (by decide) (by decide)

/-- Claim C10: `StanzaTokenizer` inherits the base class's `fit`, which only
sets the stored structure to `None`, so `fit_transform` returns `None` for
every input collection rather than a hierarchical structure. -/
theorem claim_C10_stanza_returns_none (X : List String) :
    StanzaTokenizer.fit_transform X = none :=
  rfl

end TextMAP
